import Mathlib

/-!
Verification of the forestmaker ambient-soundscape engine.

This file gives a shallow embedding of the parts of the repository that the
specification's claims are about:

* `AudioManager` (src/unnamed/part_005): instance bookkeeping of
  `playSound` / `stopSound` / `cleanupSound` / `ensureAllStopped` /
  `loadSound`, the delayed-loop scheduling of `setupDelayedLoop`, the
  Picture-in-Picture routing of `connectAllToPiP` / `clearPiPConnections` /
  `setMainPageMasterGain`, and the recovery-attempt bookkeeping of
  `startAudioContextMonitoring`.
* `SoundEqualizer` (src/app/components/SoundEqualizer.tsx):
  `getSoundIntensity` and the band/volume/throttle decision logic of
  `playSoundWithThrottle`.
* the forest-selection logic of `handleSoundChange` (src/unnamed/part_000),
  together with a spec-modelled `findMatchingForest` (the file
  `utils/forestMatcher.ts` is not part of the sources).

JavaScript strings (asset ids and playback-instance ids) are modelled as
`List Char`; JavaScript `Map`s keyed by instance id are modelled as
association lists keyed by `List Char`.  `Date.now ()` timestamps and the
random number of `Math.random ()` are passed in as explicit parameters.
Audio-graph side effects that the claims quantify over (gain value, the
connections of a gain node to the main destination, the PiP sink and the
main-page master gain) are recorded in a `GNode` record.
-/

/-- JavaScript strings are modelled as lists of characters. -/
abbrev SoundId := List Char

/-- Shorthand turning a Lean string literal into a modelled JS string. -/
def str (s : String) : SoundId := s.data

/-- The suffix `"-recovery"` used by the prefix tests
`id.startsWith (assetId + "-recovery")` in `cleanupSound`,
`ensureAllStopped` and `clearLoopTimeoutsForAsset`. -/
def recoveryTag : SoundId := str "-recovery"

/-- The separator `"-recovery-"` used when building recovery instance ids in
`playSound` and when splitting ids back to base asset ids. -/
def recoverySep : SoundId := str "-recovery-"

/-- The id-matching test used throughout `AudioManager.cleanupSound`,
`clearLoopTimeoutsForAsset` and `ensureAllStopped`:
`id === assetId || id.startsWith (assetId + "-recovery")`. -/
def matchesAsset (assetId id : SoundId) : Bool :=
  id == assetId || (assetId ++ recoveryTag).isPrefixOf id

/-- `id.includes ('-recovery-') ? id.split ('-recovery-')[0] : id`
(the prefix of `id` before the first occurrence of `"-recovery-"`, or `id`
itself when the separator does not occur), as used by `setupDelayedLoop`,
`reconnectAllSounds`, `dedupAllSounds` and the final fallback of
`ensureAllStopped`. -/
def baseIdOf : SoundId → SoundId
  | [] => []
  | c :: rest =>
    if recoverySep.isPrefixOf (c :: rest) then [] else c :: baseIdOf rest

/-- `asset.id.split ('-')[0]` — the sound type of an asset id
(e.g. `"birds-soft"` ↦ `"birds"`), from `AudioManager.playSound`. -/
def soundTypeOf : SoundId → SoundId
  | [] => []
  | c :: rest => if c = '-' then [] else c :: soundTypeOf rest

/-- Sound types that get a random delay between loops
(`DELAYED_LOOP_SOUND_TYPES` in src/unnamed/part_005). -/
def DELAYED_LOOP_SOUND_TYPES : List SoundId :=
  [str "birds", str "thunder", str "insects", str "mammals",
   str "spiritual", str "ambient"]

/-- Sound types that fade out before the loop ends
(`FADE_OUT_SOUND_TYPES` in src/unnamed/part_005). -/
def FADE_OUT_SOUND_TYPES : List SoundId :=
  [str "birds", str "thunder", str "insects", str "mammals",
   str "spiritual", str "ambient"]

/-- The audio-graph state of one `GainNode` that the claims are about: its
`gain.value` and whether it is currently connected to the main context
destination, to the main-page master gain, and to the PiP sink. -/
structure GNode where
  value : ℚ
  toDest : Bool
  toMaster : Bool
  toPiP : Bool
deriving DecidableEq, Repr

/-- A gain node after the force-mute-and-disconnect discipline
(`gain.value = 0` / `cancelScheduledValues; setValueAtTime (0, 0)` followed
by `disconnect ()`). -/
def mutedGNode : GNode := ⟨0, false, false, false⟩

/-- The mutable fields of the `AudioManager` singleton that the claims
quantify over.  `audioBuffers`, `activeSources`, `activeGains` and
`loopTimeouts` model the four `Map`s of the class (for `audioBuffers` and
`activeSources` and `loopTimeouts` only the key sets matter to the claims,
so they are kept as key lists); `mainPageMasterGain`, `hasPiP`
(`connectToPiP` being set), `wasContextInterrupted` and `initialized` model
the correspondingly named fields. -/
structure AMState where
  audioBuffers : List SoundId
  activeSources : List SoundId
  activeGains : List (SoundId × GNode)
  loopTimeouts : List SoundId
  mainPageMasterGain : Option GNode
  hasPiP : Bool
  wasContextInterrupted : Bool
  initialized : Bool
deriving DecidableEq, Repr

/-- `AudioManager.cleanupSound (assetId)`: collect every id in
`activeSources` equal to `assetId` or starting with `assetId + "-recovery"`
(`nodesToClean`), then for each such id stop and remove the source, remove
the gain node if present, and clear the pending loop timeout if present.
Note that `nodesToClean` is computed from `activeSources` only: gains or
timeouts whose id has no active source entry are left untouched. -/
def cleanupSound (assetId : SoundId) (st : AMState) : AMState :=
  let nodesToClean := st.activeSources.filter (matchesAsset assetId)
  { st with
    activeSources := st.activeSources.filter fun id => !nodesToClean.contains id
    activeGains := st.activeGains.filter fun g => !nodesToClean.contains g.1
    loopTimeouts := st.loopTimeouts.filter fun id => !nodesToClean.contains id }

/-- `AudioManager.stopSound (assetId)` simply delegates to `cleanupSound`. -/
def stopSound (assetId : SoundId) (st : AMState) : AMState :=
  cleanupSound assetId st

/-- The `try` body of `AudioManager.loadSound`: a cache hit returns at once
(no fetch, no decode); otherwise the fetch/decode oracle either throws
(`fetchResult = none`, modelling a network or decode error) or yields a
decoded buffer that is stored in the cache.  The returned `Bool` records
whether a fetch was performed. -/
def loadSoundTry (assetId : SoundId) (fetchResult : Option Unit)
    (st : AMState) : Except String (AMState × Bool) :=
  if st.audioBuffers.contains assetId then .ok (st, false)
  else
    match fetchResult with
    | none => .error "failed to load sound"
    | some _ => .ok ({ st with audioBuffers := assetId :: st.audioBuffers }, true)

/-- `AudioManager.loadSound`: the `try` body wrapped in the `catch` that
logs and returns normally, leaving the state (in particular the buffer
cache) unchanged on error.  The model assumes an initialized engine (the
`await initialize ()` guard does not touch the buffer cache). -/
def loadSound (assetId : SoundId) (fetchResult : Option Unit)
    (st : AMState) : AMState × Bool :=
  match loadSoundTry assetId fetchResult st with
  | .ok r => r
  | .error _ => (st, true)

/-- The instance id chosen by `AudioManager.playSound`:
`wasContextInterrupted ? asset.id + "-recovery-" + Date.now () : asset.id`. -/
def instanceIdFor (assetId : SoundId) (interrupted : Bool) (ts : Nat) :
    SoundId :=
  if interrupted then assetId ++ recoverySep ++ str (toString ts) else assetId

/-- The bookkeeping of the successful tail of `AudioManager.playSound`
(buffer present): create source and gain, set the gain value to `volume`,
connect `gain → mainPageMasterGain` when PiP routing is active and
`gain → destination` otherwise, additionally connect the gain to the PiP
sink when `connectToPiP` is set, and register the instance under
`soundInstanceId` in `activeSources` and `activeGains` (`Map.set`
semantics: an existing entry under the same key is replaced). -/
def startInstance (assetId : SoundId) (volume : ℚ) (ts : Nat)
    (st : AMState) : AMState :=
  let soundInstanceId := instanceIdFor assetId st.wasContextInterrupted ts
  let g : GNode :=
    { value := volume
      toDest := st.mainPageMasterGain.isNone
      toMaster := st.mainPageMasterGain.isSome
      toPiP := st.hasPiP }
  { st with
    activeSources :=
      soundInstanceId :: st.activeSources.filter (· ≠ soundInstanceId)
    activeGains :=
      (soundInstanceId, g) :: st.activeGains.filter (·.1 ≠ soundInstanceId) }

/-- `AudioManager.playSound (asset, volume)` for an initialized engine with
a running context (the suspended/interrupted resume branch performs no
instance bookkeeping when the resume succeeds): first `cleanupSound
(asset.id)`, then on a buffer-cache hit start the new instance, and on a
miss `await loadSound (asset)` followed by the recursive retry
`return this.playSound (asset, volume)`.  The recursion is modelled with
explicit fuel: `none` means the recursion has not terminated within `fuel`
unfoldings.  `fetchResult` is the fetch/decode oracle handed to every
`loadSound` attempt. -/
def playSoundFuel (fetchResult : Option Unit) :
    Nat → SoundId → ℚ → Nat → AMState → Option AMState
  | 0, _, _, _, _ => none
  | fuel + 1, assetId, volume, ts, st =>
    let st1 := cleanupSound assetId st
    if st1.audioBuffers.contains assetId then
      some (startInstance assetId volume ts st1)
    else
      playSoundFuel fetchResult fuel assetId volume ts
        (loadSound assetId fetchResult st1).1

/-- The gain-automation ramp scheduled by `AudioManager.setupDelayedLoop`:
starting at `startTime`, ramp linearly from `fromValue` to `toValue` over
`duration` seconds. -/
structure FadeSched where
  startTime : ℚ
  duration : ℚ
  fromValue : ℚ
  toValue : ℚ
deriving DecidableEq, Repr

/-- The fade-out duration computed by `AudioManager.setupDelayedLoop`:
`useFadeOut ? Math.min (1.5, audioDuration * 0.1) : 0`. -/
def fadeOutDuration (useFadeOut : Bool) (audioDuration : ℚ) : ℚ :=
  if useFadeOut then min (3 / 2) (audioDuration * (1 / 10)) else 0

/-- The end-of-clip fade scheduled by `AudioManager.setupDelayedLoop`: when
`useFadeOut` and the fade duration is positive, schedule
`setValueAtTime (volume, fadeOutStartTime)` followed by
`linearRampToValueAtTime (0, fadeOutStartTime + fadeOutDuration)` with
`fadeOutStartTime = currentTime + audioDuration - fadeOutDuration`. -/
def setupDelayedLoopFade (currentTime audioDuration volume : ℚ)
    (useFadeOut : Bool) : Option FadeSched :=
  let fd := fadeOutDuration useFadeOut audioDuration
  if useFadeOut ∧ 0 < fd then
    some ⟨currentTime + audioDuration - fd, fd, volume, 0⟩
  else none

/-- The random inter-iteration delay of `setupDelayedLoop`'s `onended`
callback: `Math.random () * 22 + 5` seconds, where `r` is the value
returned by `Math.random ()` (a number in `[0, 1)`). -/
def randomDelaySeconds (r : ℚ) : ℚ := r * 22 + 5

/-- The `source.onended` callback installed by `setupDelayedLoop` for a
delayed-loop sound (`useRandomDelay = true`): remove the instance from
`activeSources` and `activeGains`; if the manager is still initialized,
register a fresh loop-continuation timeout under `soundInstanceId`
(replacing any existing one). -/
def delayedOnEnded (soundInstanceId : SoundId) (st : AMState) : AMState :=
  let st1 :=
    { st with
      activeSources := st.activeSources.filter (· ≠ soundInstanceId)
      activeGains := st.activeGains.filter (·.1 ≠ soundInstanceId) }
  if st1.initialized then
    { st1 with
      loopTimeouts :=
        soundInstanceId :: st1.loopTimeouts.filter (· ≠ soundInstanceId) }
  else st1

/-- The body of the loop-continuation timeout created by `setupDelayedLoop`
when it fires: replay the base asset (`soundInstanceId` with any
`"-recovery-"` suffix stripped) via `playSound`, then delete the timeout
reference. -/
def loopTimerFire (fetchResult : Option Unit) (fuel : Nat)
    (soundInstanceId : SoundId) (volume : ℚ) (ts : Nat) (st : AMState) :
    Option AMState :=
  (playSoundFuel fetchResult fuel (baseIdOf soundInstanceId) volume ts
      st).map
    fun st' =>
      { st' with loopTimeouts := st'.loopTimeouts.filter (· ≠ soundInstanceId) }

/-- `AudioManager.clearLoopTimeoutsForAsset (assetId)`: delete every
pending loop timeout whose id equals `assetId` or starts with
`assetId + "-recovery"`. -/
def clearLoopTimeoutsForAsset (assetId : SoundId) (st : AMState) : AMState :=
  { st with
    loopTimeouts := st.loopTimeouts.filter fun id => !matchesAsset assetId id }

/-- The body of the `assetIds.forEach` loop of
`AudioManager.ensureAllStopped` for one `assetId`: `stopSound (assetId)`,
then `clearLoopTimeoutsForAsset (assetId)`, then `stopSound (id)` for every
remaining active source id starting with `assetId + "-recovery"`, and
finally force-mute (`cancelScheduledValues; setValueAtTime (0, 0)`) and
disconnect every matching gain node (without removing it from the
`activeGains` map). -/
def perAssetStop (assetId : SoundId) (st : AMState) : AMState :=
  let st1 := stopSound assetId st
  let st2 := clearLoopTimeoutsForAsset assetId st1
  let recoveryIds :=
    st2.activeSources.filter fun id => (assetId ++ recoveryTag).isPrefixOf id
  let st3 := recoveryIds.foldl (fun s i => stopSound i s) st2
  { st3 with
    activeGains := st3.activeGains.map fun (g : SoundId × GNode) =>
      if matchesAsset assetId g.1 then (g.1, mutedGNode) else g }

/-- `AudioManager.ensureAllStopped (assetIds)`: return at once on an empty
list; otherwise run the per-asset stop sequence for each listed asset id,
then run the final fallback that force-stops and removes (from
`activeSources` only) every source whose base id is in `assetIds`. -/
def ensureAllStopped (assetIds : List SoundId) (st : AMState) : AMState :=
  if assetIds.isEmpty then st
  else
    let st' := assetIds.foldl (fun s a => perAssetStop a s) st
    let escaped :=
      st'.activeSources.filter fun id => assetIds.contains (baseIdOf id)
    { st' with
      activeSources := st'.activeSources.filter fun id => !escaped.contains id }

/-- `AudioManager.connectAllToPiP` for a state where a PiP sink is attached
(`connectToPiP` set) and the context exists: create a main-page master gain
with value `0`, reroute every active gain node from the destination to this
muted master gain and additionally connect it to the PiP sink, connect the
master gain to the destination, and store it in `_mainPageMasterGain`.
(The iOS stabilization retries schedule no immediate bookkeeping.) -/
def connectAllToPiP (st : AMState) : AMState :=
  if !st.hasPiP then st
  else
    { st with
      activeGains := st.activeGains.map fun (g : SoundId × GNode) =>
        (g.1, { g.2 with toDest := false, toMaster := true, toPiP := true })
      mainPageMasterGain := some ⟨0, true, false, false⟩ }

/-- `AudioManager.setMainPageMasterGain (null)`: disconnect the previous
master gain (dropping the node) and store `null`; with a `null` argument
the `reconnectAllSounds` branch is not taken. -/
def setMainPageMasterGainNone (st : AMState) : AMState :=
  { st with mainPageMasterGain := none }

/-- `AudioManager.clearPiPConnections`: force-mute every active gain
(`cancelScheduledValues (0); setValueAtTime (0, 0)`) and disconnect it from
all destinations, clear the `connectToPiP` function, reconnect every active
gain directly to the context destination, and clear all pending loop
timeouts (`clearAllLoopTimeouts`). -/
def clearPiPConnections (st : AMState) : AMState :=
  let st1 :=
    { st with
      activeGains :=
        st.activeGains.map fun (g : SoundId × GNode) => (g.1, mutedGNode)
      hasPiP := false }
  { st1 with
    activeGains := st1.activeGains.map fun (g : SoundId × GNode) =>
      (g.1, { g.2 with toDest := true })
    loopTimeouts := [] }

/-- The PiP detach path run by `togglePiP` in src/unnamed/part_000:
`setMainPageMasterGain (null)` followed by `clearPiPConnections ()`. -/
def detachPiP (st : AMState) : AMState :=
  clearPiPConnections (setMainPageMasterGainNone st)

/-- One tick of the iOS branch of the periodic interval started by
`AudioManager.startAudioContextMonitoring`, restricted to its effect on the
`recoveryAttempts` counter and whether it calls `recoverFromInterruption`:
on a running context reset the counter; otherwise attempt recovery while
`recoveryAttempts < 5` (incrementing), log-and-back-off at exactly `5`
(incrementing to `6`), reset to `0` once the counter reaches `10`, and
otherwise keep incrementing without recovering. -/
def monitorTick (recoveryAttempts : Nat) (running : Bool) : Nat × Bool :=
  if running then (0, false)
  else if recoveryAttempts < 5 then (recoveryAttempts + 1, true)
  else if recoveryAttempts == 5 then (6, false)
  else if recoveryAttempts ≥ 10 then (0, false)
  else (recoveryAttempts + 1, false)

/-- The counter after `k` consecutive monitor ticks that all observe a
non-running context, starting from counter value `a`. -/
def monitorTrace (a : Nat) : Nat → Nat
  | 0 => a
  | k + 1 => (monitorTick (monitorTrace a k) false).1

/-- Whether the monitor tick at step `k` of a non-running run starting at
counter `a` calls `recoverFromInterruption`. -/
def monitorRecovers (a k : Nat) : Bool :=
  (monitorTick (monitorTrace a k) false).2

/-- The three intensity bands of the equalizer
(`'soft' | 'moderate' | 'strong'`). -/
inductive Band where
  | soft
  | moderate
  | strong
deriving DecidableEq, Repr

/-- `getSoundIntensity` from src/app/components/SoundEqualizer.tsx:
`value <= 0.33 → 'soft'`, `value <= 0.66 → 'moderate'`, else `'strong'`. -/
def getSoundIntensity (value : ℚ) : Band :=
  if value ≤ 33 / 100 then .soft
  else if value ≤ 66 / 100 then .moderate
  else .strong

/-- The volume handed to the audio manager by `playSoundWithThrottle`:
`0.3 + value * 0.7`. -/
def normalizedVolume (value : ℚ) : ℚ := 3 / 10 + value * (7 / 10)

/-- The per-sound equalizer bookkeeping read and written by
`playSoundWithThrottle`: `currentlyPlayingRef.current[sound]` (the asset id
currently playing for this sound, identified by its band; `none` models the
cleared `''` entry) and `lastSliderUpdateRef.current[sound]`
(`{ time, intensity }`, recorded on the asset-swap branch only). -/
structure EqState where
  currentlyPlaying : Option Band
  lastUpdateTime : Nat
  lastUpdateIntensity : Option Band
deriving DecidableEq, Repr

/-- The audio action a `playSoundWithThrottle` call performs for its sound:
the triple-`ensureAllStopped` stop path for value `0`, the throttle early
return, the volume-only adjustment, or the asset swap (stop every asset of
the sound type, then play the asset of the new band). -/
inductive EqAction where
  | stopAll
  | skip
  | volumeOnly (volume : ℚ)
  | swap (newBand : Band) (volume : ℚ)
deriving DecidableEq, Repr

/-- One call of `playSoundWithThrottle (sound, value)` at time `now`
(`Date.now ()`), as a pure step on the per-sound `EqState` (the asset of a
band always exists for sounds with audio assets, and distinct bands have
distinct asset ids, so asset ids are identified with bands):

* `value === 0`: `ensureAllStopped` for all of the sound's assets and
  clear `currentlyPlayingRef` (the stop path);
* last update under 150 ms ago with unchanged intensity: early return;
* same asset already playing: adjust the volume only;
* otherwise: stop every asset of the sound type, record
  `{ time: now, intensity }`, and start the new band's asset at the
  normalized volume. -/
def playSoundWithThrottle (st : EqState) (value : ℚ) (now : Nat) :
    EqState × EqAction :=
  if value = 0 then ({ st with currentlyPlaying := none }, .stopAll)
  else
    let currentIntensity := getSoundIntensity value
    if now - st.lastUpdateTime < 150 ∧
        st.lastUpdateIntensity = some currentIntensity then
      (st, .skip)
    else if st.currentlyPlaying = some currentIntensity then
      (st, .volumeOnly (normalizedVolume value))
    else
      ({ currentlyPlaying := some currentIntensity
         lastUpdateTime := now
         lastUpdateIntensity := some currentIntensity },
       .swap currentIntensity (normalizedVolume value))

/-- The ten sound layers (`SoundType` in utils/forestMatcher, as imported
by src/unnamed/part_000 and the components). -/
inductive SoundType where
  | wind
  | rain
  | birds
  | thunder
  | water
  | insects
  | mammals
  | fire
  | ambient
  | spiritual
deriving DecidableEq, Repr

/-- A forest preset: an id and a sound profile assigning each layer a
target weight (src/app/data/forests.ts entries). -/
structure Forest where
  id : Nat
  soundProfile : SoundType → ℚ

/-- Modelled from the spec: the similarity score of `findMatchingForest`
(utils/forestMatcher.ts is not among the sources).  Per spec §4.2, a
weighted dot product of the live intensity vector and the preset's profile
restricted to the currently-active layers. -/
def forestScore (profile : SoundType → ℚ) (active : List SoundType)
    (f : Forest) : ℚ :=
  (active.map fun s => profile s * f.soundProfile s).sum

/-- Modelled from the spec: `findMatchingForest (soundProfile, activeSet)`
from the missing utils/forestMatcher.ts.  Per spec §4.2 it returns `None`
when `activeLayers` is empty, and otherwise the single best-scoring preset
of the catalog, ties broken deterministically by catalog order. -/
def findMatchingForest (catalog : List Forest) (profile : SoundType → ℚ)
    (active : List SoundType) : Option Forest :=
  if active.isEmpty then none
  else
    catalog.foldl
      (fun best f =>
        match best with
        | none => some f
        | some b =>
          if forestScore profile active b < forestScore profile active f then
            some f
          else best)
      none

/-- The forest-selection logic of `handleSoundChange` in
src/unnamed/part_000: with at least one active sound, call
`findMatchingForest` and switch the current forest only when a match is
returned whose id differs from the current selection (`if (matchingForest
&& (!currentForest || currentForest.id !== matchingForest.id))`); with no
active sounds, clear the selection to `null` without calling the
matcher. -/
def handleSoundChangeForest (catalog : List Forest)
    (activeSounds : List SoundType) (profile : SoundType → ℚ)
    (currentForest : Option Forest) : Option Forest :=
  if activeSounds.length > 0 then
    match findMatchingForest catalog profile activeSounds with
    | some f =>
      match currentForest with
      | none => some f
      | some c => if c.id ≠ f.id then some f else currentForest
    | none => currentForest
  else none

section Lemmas

/-- Membership in a filtered list, as a `contains` equation. -/
theorem contains_filter {α : Type} [BEq α] [LawfulBEq α] (p : α → Bool)
    (l : List α) (x : α) : (l.filter p).contains x = (p x && l.contains x) := by
  by_cases h : p x
  · simp [List.contains, List.elem_eq_mem, List.mem_filter, h]
  · simp [List.contains, List.elem_eq_mem, List.mem_filter, h]

/-- `cleanupSound` does not touch the decoded-buffer cache. -/
theorem cleanupSound_audioBuffers (assetId : SoundId) (st : AMState) :
    (cleanupSound assetId st).audioBuffers = st.audioBuffers := rfl

/-- The sources left by `cleanupSound`: exactly the sources whose id does
not match the stopped asset. -/
theorem cleanupSound_sources (assetId : SoundId) (st : AMState) :
    (cleanupSound assetId st).activeSources =
      st.activeSources.filter fun id => !matchesAsset assetId id := by
  show st.activeSources.filter _ = _
  refine List.filter_congr fun id hid => ?_
  rw [contains_filter]
  cases h : matchesAsset assetId id <;>
    simp [h, List.contains, List.elem_eq_mem, hid]

/-- The gains left by `cleanupSound`: a gain entry is removed exactly when
its id matches the asset and still had an active source entry. -/
theorem cleanupSound_gains (assetId : SoundId) (st : AMState) :
    (cleanupSound assetId st).activeGains =
      st.activeGains.filter fun g =>
        !(matchesAsset assetId g.1 && st.activeSources.contains g.1) := by
  show st.activeGains.filter _ = _
  refine List.filter_congr fun g _ => ?_
  rw [contains_filter]

/-- The loop timeouts left by `cleanupSound`: a pending timeout is cleared
exactly when its id matches the asset and still had an active source
entry.  In particular a timeout whose instance already ended (no active
source) survives. -/
theorem cleanupSound_timeouts (assetId : SoundId) (st : AMState) :
    (cleanupSound assetId st).loopTimeouts =
      st.loopTimeouts.filter fun id =>
        !(matchesAsset assetId id && st.activeSources.contains id) := by
  show st.loopTimeouts.filter _ = _
  refine List.filter_congr fun id _ => ?_
  rw [contains_filter]

/-- `cleanupSound` on a layer with no active source entries is a no-op. -/
theorem cleanupSound_no_match (assetId : SoundId) (st : AMState)
    (h : ∀ id ∈ st.activeSources, matchesAsset assetId id = false) :
    cleanupSound assetId st = st := by
  have hn : st.activeSources.filter (matchesAsset assetId) = [] := by
    rw [List.filter_eq_nil_iff]
    intro a ha
    simp [h a ha]
  show
    ({ st with
        activeSources := _
        activeGains := _
        loopTimeouts := _ } : AMState) = st
  rw [hn]
  simp

/-- The id of a freshly created playback instance always matches the asset
it was created for (either it is the asset id itself, or it carries a
`"-recovery-"` suffix). -/
theorem matchesAsset_instanceIdFor (assetId : SoundId) (b : Bool) (ts : Nat) :
    matchesAsset assetId (instanceIdFor assetId b ts) = true := by
  cases b with
  | false => simp [matchesAsset, instanceIdFor]
  | true =>
    have hsep : recoverySep = recoveryTag ++ ['-'] := by decide
    have :
        assetId ++ recoverySep ++ str (toString ts) =
          (assetId ++ recoveryTag) ++ ('-' :: str (toString ts)) := by
      rw [hsep]
      simp
    simp only [matchesAsset, instanceIdFor, if_pos rfl, this, Bool.or_eq_true]
    right
    rw [List.isPrefixOf_iff_prefix]
    exact List.prefix_append _ _

/-- `playSound` with the buffer already decoded: one unfolding suffices and
the call resolves, yielding cleanup followed by a fresh instance. -/
theorem playSoundFuel_hit (fetchResult : Option Unit) (fuel : Nat)
    (assetId : SoundId) (volume : ℚ) (ts : Nat) (st : AMState)
    (hbuf : st.audioBuffers.contains assetId = true) :
    playSoundFuel fetchResult (fuel + 1) assetId volume ts st =
      some (startInstance assetId volume ts (cleanupSound assetId st)) := by
  unfold playSoundFuel
  simp only [cleanupSound_audioBuffers, hbuf, if_pos]

/-- The freshly started instance is registered in `activeSources`. -/
theorem startInstance_mem_sources (assetId : SoundId) (volume : ℚ) (ts : Nat)
    (st : AMState) :
    instanceIdFor assetId st.wasContextInterrupted ts ∈
      (startInstance assetId volume ts st).activeSources := by
  simp [startInstance]

/-- `loadSound` on a decode/network failure: the `try` body throws, the
`catch` returns normally, and the cache is left without the entry. -/
theorem loadSound_failure (assetId : SoundId) (st : AMState)
    (hmiss : st.audioBuffers.contains assetId = false) :
    loadSoundTry assetId none st = .error "failed to load sound" ∧
      loadSound assetId none st = (st, true) := by
  have hm : assetId ∉ st.audioBuffers := by
    intro hmem
    simp [List.contains, List.elem_eq_mem, hmem] at hmiss
  constructor
  · simp [loadSoundTry, hm]
  · simp [loadSound, loadSoundTry, hm]

end Lemmas

/-- **C8.** Automatic hardware-context recovery is bounded: on every
monitoring tick that observes a running context the attempt counter resets
to zero; starting from a reset counter the loop makes exactly 5
consecutive `recoverFromInterruption` attempts (ticks 0–4) and then backs
off (tick 5 makes none); and from any counter value, among any 6
consecutive non-running ticks at least one makes no recovery attempt, so
at most 5 consecutive recovery attempts ever occur. -/
theorem c8_recovery_attempts_bounded :
    (∀ a, monitorTick a true = (0, false)) ∧
    (((List.range 5).all fun k => monitorRecovers 0 k) = true) ∧
    monitorRecovers 0 5 = false ∧
    (∀ a, ∃ k, k ≤ 5 ∧ monitorRecovers a k = false) := by
  refine ⟨fun a => rfl, by decide, by decide, fun a => ?_⟩
  by_cases h : a < 5
  · refine ⟨5 - a, by omega, ?_⟩
    have key : ∀ j b, b + j ≤ 5 → monitorTrace b j = b + j := by
      intro j
      induction j with
      | zero => intro b _; simp [monitorTrace]
      | succ j ih =>
        intro b hb
        have hj : b + j ≤ 5 := by omega
        have hlt : b + j < 5 := by omega
        simp [monitorTrace, ih b hj, monitorTick, hlt]
        omega
    have h5 : monitorTrace a (5 - a) = 5 := by
      have := key (5 - a) a (by omega)
      rw [this]
      omega
    simp [monitorRecovers, h5, monitorTick]
  · refine ⟨0, by omega, ?_⟩
    show (monitorTick a false).2 = false
    by_cases h5 : a = 5
    · subst h5
      rfl
    · by_cases h10 : a ≥ 10
      · simp [monitorTick, h, h5, h10]
      · simp [monitorTick, h, h5, h10]

/-- **C9.** `ForestMatcher.match` on an empty set of active layers returns
`None` for every intensity vector and every catalog, and the caller
(`handleSoundChange`) clears the current-forest selection to `null` rather
than retaining or choosing a preset. -/
theorem c9_empty_match_none (catalog : List Forest)
    (profile : SoundType → ℚ) (currentForest : Option Forest) :
    findMatchingForest catalog profile [] = none ∧
    handleSoundChangeForest catalog [] profile currentForest = none := by
  constructor
  · simp [findMatchingForest]
  · simp [handleSoundChangeForest]

/-- **C7.** `loadSound` is idempotent and fails silently: loading an id
already present in the decoded-buffer cache is a no-op (no fetch, no
decode, state unchanged) — in particular the call right after a successful
load performs no second fetch — and on a network/decode error the `try`
body throws, the `catch` returns normally to the caller, and the cache is
left without an entry for the id. -/
theorem c7_loadSound_idempotent_silent (st : AMState) (assetId : SoundId)
    (r : Option Unit) (hmiss : st.audioBuffers.contains assetId = false) :
    (∀ st' : AMState, st'.audioBuffers.contains assetId = true →
        loadSound assetId r st' = (st', false)) ∧
    loadSound assetId r (loadSound assetId (some ()) st).1 =
      ((loadSound assetId (some ()) st).1, false) ∧
    loadSoundTry assetId none st = .error "failed to load sound" ∧
    loadSound assetId none st = (st, true) := by
  have cachedHit : ∀ st' : AMState, st'.audioBuffers.contains assetId = true →
      loadSound assetId r st' = (st', false) := by
    intro st' h
    have hmem : assetId ∈ st'.audioBuffers := by
      simpa [List.contains, List.elem_eq_mem] using h
    simp [loadSound, loadSoundTry, hmem]
  refine ⟨cachedHit, ?_, loadSound_failure assetId st hmiss⟩
  refine cachedHit _ ?_
  have hm : assetId ∉ st.audioBuffers := by
    intro hmem
    simp [List.contains, List.elem_eq_mem, hmem] at hmiss
  simp [loadSound, loadSoundTry, hm, List.contains, List.elem_eq_mem]

/-- Witness for C7 at a concrete input. -/
theorem c7_witness :
    ((⟨[], [], [], [], none, false, false, true⟩ :
          AMState).audioBuffers.contains (str "rain-soft") = false) ∧
    ((∀ st' : AMState,
        st'.audioBuffers.contains (str "rain-soft") = true →
          loadSound (str "rain-soft") none st' = (st', false)) ∧
      loadSound (str "rain-soft") none
          (loadSound (str "rain-soft") (some ())
            ⟨[], [], [], [], none, false, false, true⟩).1 =
        ((loadSound (str "rain-soft") (some ())
            ⟨[], [], [], [], none, false, false, true⟩).1, false) ∧
      loadSoundTry (str "rain-soft") none
          ⟨[], [], [], [], none, false, false, true⟩ =
        .error "failed to load sound" ∧
      loadSound (str "rain-soft") none
          ⟨[], [], [], [], none, false, false, true⟩ =
        (⟨[], [], [], [], none, false, false, true⟩, true)) :=
  ⟨by decide,
   c7_loadSound_idempotent_silent ⟨[], [], [], [], none, false, false, true⟩
     (str "rain-soft") none (by decide)⟩

/-- **C10.** `playSound` does not terminate when the asset's buffer is
absent and loading keeps failing: for every amount of fuel the modelled
recursion `playSound → loadSound (fails silently, cache not populated) →
playSound` fails to resolve, i.e. the real call neither resolves nor
rejects.  (`fetchResult = none` models a persistently failing fetch or
decode.) -/
theorem c10_playSound_diverges (assetId : SoundId) (volume : ℚ) (ts : Nat) :
    ∀ (fuel : Nat) (st : AMState),
      st.audioBuffers.contains assetId = false →
      playSoundFuel none fuel assetId volume ts st = none := by
  intro fuel
  induction fuel with
  | zero => intro st _; rfl
  | succ n ih =>
    intro st hmiss
    unfold playSoundFuel
    have hmiss' : (cleanupSound assetId st).audioBuffers.contains assetId
        = false := by
      rw [cleanupSound_audioBuffers]
      exact hmiss
    simp only [hmiss', Bool.false_eq_true, if_false]
    rw [(loadSound_failure assetId (cleanupSound assetId st) hmiss').2]
    exact ih (cleanupSound assetId st) hmiss'

/-- Witness for C10 at a concrete input. -/
theorem c10_witness :
    ((⟨[], [], [], [], none, false, false, true⟩ :
          AMState).audioBuffers.contains (str "birds-soft") = false) ∧
    playSoundFuel none 7 (str "birds-soft") 1 0
        ⟨[], [], [], [], none, false, false, true⟩ = none :=
  ⟨by decide,
   c10_playSound_diverges (str "birds-soft") 1 0 7
     ⟨[], [], [], [], none, false, false, true⟩ (by decide)⟩

/-- **C1.** For every layer and volume, `playSound` immediately followed by
`stopSound` leaves zero active playback instances for the layer: no entry
keyed by the asset id or by any `"-recovery-"`-suffixed derivative of it
remains in `activeSources` or `activeGains`; and `stopSound` on an
already-stopped layer (no matching active source) is a no-op.  The
hypothesis `hwf` is the bookkeeping invariant that a registered gain whose
id matches the layer still has its source entry (sources and gains are
always registered and removed together). -/
theorem c1_play_then_stop_no_residual (st : AMState) (assetId : SoundId)
    (volume : ℚ) (ts : Nat)
    (hbuf : st.audioBuffers.contains assetId = true)
    (hwf : ∀ g ∈ st.activeGains,
      matchesAsset assetId g.1 = true → g.1 ∈ st.activeSources) :
    (∃ st', playSoundFuel none 1 assetId volume ts st = some st' ∧
       (∀ id ∈ (stopSound assetId st').activeSources,
          matchesAsset assetId id = false) ∧
       (∀ g ∈ (stopSound assetId st').activeGains,
          matchesAsset assetId g.1 = false)) ∧
    (∀ st0 : AMState,
      (∀ id ∈ st0.activeSources, matchesAsset assetId id = false) →
        stopSound assetId st0 = st0) := by
  constructor
  · refine ⟨startInstance assetId volume ts (cleanupSound assetId st),
      playSoundFuel_hit none 0 assetId volume ts st hbuf, ?_, ?_⟩
    · intro id hid
      unfold stopSound at hid
      rw [cleanupSound_sources] at hid
      rw [List.mem_filter] at hid
      simpa using hid.2
    · intro g hg
      unfold stopSound at hg
      rw [cleanupSound_gains] at hg
      rw [List.mem_filter] at hg
      obtain ⟨hg1, hg2⟩ := hg
      by_contra hcm
      have hm : matchesAsset assetId g.1 = true := by
        cases h : matchesAsset assetId g.1
        · exact absurd h hcm
        · rfl
      have hsrc :
          g.1 ∈ (startInstance assetId volume ts
            (cleanupSound assetId st)).activeSources := by
        rcases (by simpa [startInstance] using hg1 :
            g = (instanceIdFor assetId st.wasContextInterrupted ts, _) ∨
              g ∈ (cleanupSound assetId st).activeGains.filter
                (·.1 ≠ instanceIdFor assetId st.wasContextInterrupted ts))
          with h | h
        · rw [h]
          exact startInstance_mem_sources assetId volume ts
            (cleanupSound assetId st)
        · exfalso
          rw [List.mem_filter] at h
          obtain ⟨hmem, _⟩ := h
          rw [cleanupSound_gains, List.mem_filter] at hmem
          obtain ⟨hmem1, hmem2⟩ := hmem
          have hin := hwf g hmem1 hm
          simp [hm, List.contains, List.elem_eq_mem, hin] at hmem2
      have : (startInstance assetId volume ts
          (cleanupSound assetId st)).activeSources.contains g.1 = true := by
        simp [List.contains, List.elem_eq_mem, hsrc]
      simp [hm, this] at hg2
      exact hg2 hsrc
  · intro st0 h0
    exact cleanupSound_no_match assetId st0 h0

/-- Witness for C1 at a concrete input. -/
theorem c1_witness :
    ((⟨[str "rain-soft"], [], [], [], none, false, false, true⟩ :
          AMState).audioBuffers.contains (str "rain-soft") = true) ∧
    ((∃ st', playSoundFuel none 1 (str "rain-soft") 1 0
          ⟨[str "rain-soft"], [], [], [], none, false, false, true⟩ =
            some st' ∧
       (∀ id ∈ (stopSound (str "rain-soft") st').activeSources,
          matchesAsset (str "rain-soft") id = false) ∧
       (∀ g ∈ (stopSound (str "rain-soft") st').activeGains,
          matchesAsset (str "rain-soft") g.1 = false)) ∧
     (∀ st0 : AMState,
       (∀ id ∈ st0.activeSources, matchesAsset (str "rain-soft") id = false) →
         stopSound (str "rain-soft") st0 = st0)) :=
  ⟨by decide,
   c1_play_then_stop_no_residual
     ⟨[str "rain-soft"], [], [], [], none, false, false, true⟩
     (str "rain-soft") 1 0 (by decide) (by decide)⟩

/-- **C4, counterexample.** The claim says a same-band update "adjusts
volume only"; the code's throttle makes it a complete no-op instead.
Processing intensity 0.10 at t = 1000 ms (an asset swap that records
`lastSliderUpdateRef = { time: 1000, intensity: soft }`) and then 0.20 at
t = 1100 ms — both in the soft band, 100 ms < 150 ms apart — returns early
without adjusting the volume: the action is `skip`, not
`volumeOnly (normalizedVolume 0.20)`.  Also, for successive values
0.5 → 0 the bands are moderate and soft (0 lies in the soft band) yet the
update is the stop path, not an asset swap. -/
theorem c4_counterexample :
    playSoundWithThrottle ⟨none, 0, none⟩ (1 / 10) 1000 =
      (⟨some Band.soft, 1000, some Band.soft⟩,
       .swap Band.soft (normalizedVolume (1 / 10))) ∧
    playSoundWithThrottle ⟨some Band.soft, 1000, some Band.soft⟩ (2 / 10)
        1100 =
      (⟨some Band.soft, 1000, some Band.soft⟩, .skip) ∧
    EqAction.skip ≠ .volumeOnly (normalizedVolume (2 / 10)) ∧
    getSoundIntensity (1 / 10) = getSoundIntensity (2 / 10) ∧
    getSoundIntensity (1 / 2) ≠ getSoundIntensity 0 ∧
    playSoundWithThrottle ⟨some Band.moderate, 1000, some Band.moderate⟩ 0
        2000 =
      (⟨none, 1000, some Band.moderate⟩, .stopAll) := by
  refine ⟨?_, ?_, by simp, ?_, ?_, ?_⟩
  · norm_num [playSoundWithThrottle, getSoundIntensity]
    simp
  · norm_num [playSoundWithThrottle, getSoundIntensity]
  · norm_num [getSoundIntensity]
  · norm_num [getSoundIntensity]
    simp
  · norm_num [playSoundWithThrottle]

/-- **C4, amended.** For successive positive intensity values of a layer
whose current instance and last recorded band are those of the first
value: a band change always performs exactly one asset swap (stop the old
asset, start the new band's asset, record the new band); a same-band
update at least 150 ms after the last recorded band change adjusts the
volume only, with no instance replacement.  (Within 150 ms of the last
band change a same-band update is skipped entirely, and a value of 0 takes
the stop path — see the counterexample.) -/
theorem c4_band_change_behavior (st : EqState) (v1 v2 : ℚ) (t2 : Nat)
    (h2 : 0 < v2)
    (hp : st.currentlyPlaying = some (getSoundIntensity v1))
    (hl : st.lastUpdateIntensity = some (getSoundIntensity v1))
    (ht : getSoundIntensity v1 = getSoundIntensity v2 →
      150 ≤ t2 - st.lastUpdateTime) :
    (getSoundIntensity v1 ≠ getSoundIntensity v2 →
       playSoundWithThrottle st v2 t2 =
         (⟨some (getSoundIntensity v2), t2, some (getSoundIntensity v2)⟩,
          .swap (getSoundIntensity v2) (normalizedVolume v2))) ∧
    (getSoundIntensity v1 = getSoundIntensity v2 →
       playSoundWithThrottle st v2 t2 =
         (st, .volumeOnly (normalizedVolume v2))) := by
  have hv2 : ¬ v2 = 0 := ne_of_gt h2
  constructor
  · intro hne
    have hskip : ¬(t2 - st.lastUpdateTime < 150 ∧
        st.lastUpdateIntensity = some (getSoundIntensity v2)) := by
      rintro ⟨_, hEq⟩
      rw [hl] at hEq
      exact hne (Option.some.inj hEq)
    have hplay : ¬ st.currentlyPlaying = some (getSoundIntensity v2) := by
      rw [hp]
      intro hEq
      exact hne (Option.some.inj hEq)
    simp only [playSoundWithThrottle, if_neg hv2, if_neg hskip, if_neg hplay]
  · intro heq
    have hskip : ¬(t2 - st.lastUpdateTime < 150 ∧
        st.lastUpdateIntensity = some (getSoundIntensity v2)) := by
      rintro ⟨hlt, _⟩
      have := ht heq
      omega
    have hplay : st.currentlyPlaying = some (getSoundIntensity v2) := by
      rw [hp, heq]
    simp only [playSoundWithThrottle, if_neg hv2, if_neg hskip, if_pos hplay]

/-- Witness for the amended C4 at concrete inputs: crossing the band
boundary 0.33 → 0.34 yields exactly one asset swap. -/
theorem c4_witness :
    (0 : ℚ) < 34 / 100 ∧
    playSoundWithThrottle ⟨some Band.soft, 1000, some Band.soft⟩ (34 / 100)
        1100 =
      (⟨some Band.moderate, 1100, some Band.moderate⟩,
       .swap Band.moderate (normalizedVolume (34 / 100))) := by
  have hsoft : getSoundIntensity (33 / 100) = Band.soft := by
    norm_num [getSoundIntensity]
  have hmod : getSoundIntensity (34 / 100) = Band.moderate := by
    norm_num [getSoundIntensity]
  have h :=
    (c4_band_change_behavior ⟨some Band.soft, 1000, some Band.soft⟩
        (33 / 100) (34 / 100) 1100 (by norm_num)
        (by rw [hsoft]) (by rw [hsoft])
        (fun hc => absurd (hsoft ▸ hmod ▸ hc) (by simp))).1
      (by rw [hsoft, hmod]; simp)
  rw [hmod] at h
  exact ⟨by norm_num, h⟩

/-- **C5.** For every delayed-loop layer (birds, thunder, insects,
mammals, spiritual, ambient) and every decoded buffer of positive duration
`d`: the layer is also a fade-out layer and the scheduled end-of-clip fade
is a linear ramp to gain 0 of duration `min (1.5, 0.1 * d)` seconds; the
pause before the next iteration, `Math.random () * 22 + 5` with
`Math.random () ∈ [0, 1)`, always lies in the interval `[5, 27]`; and when
the pause timer fires, the replay is started as a brand-new playback
instance of the base asset (a fresh source registered in
`activeSources`). -/
theorem c5_delayed_loop_fade_and_gap (t : SoundId)
    (ht : t ∈ DELAYED_LOOP_SOUND_TYPES) (currentTime d volume r : ℚ)
    (hd : 0 < d) (hr0 : 0 ≤ r) (hr1 : r < 1) (st : AMState)
    (soundInstanceId : SoundId) (vol : ℚ) (ts fuel : Nat)
    (hbuf : st.audioBuffers.contains (baseIdOf soundInstanceId) = true) :
    (t ∈ FADE_OUT_SOUND_TYPES ∧
      setupDelayedLoopFade currentTime d volume true =
        some ⟨currentTime + d - min (3 / 2) (d * (1 / 10)),
              min (3 / 2) (d * (1 / 10)), volume, 0⟩) ∧
    (5 ≤ randomDelaySeconds r ∧ randomDelaySeconds r < 27) ∧
    (∃ st', loopTimerFire none (fuel + 1) soundInstanceId vol ts st =
        some st' ∧
      instanceIdFor (baseIdOf soundInstanceId) st.wasContextInterrupted ts ∈
        st'.activeSources) := by
  refine ⟨⟨ht, ?_⟩, ⟨?_, ?_⟩, ?_⟩
  · have hpos : 0 < min ((3 : ℚ) / 2) (d * (1 / 10)) :=
      lt_min (by norm_num) (mul_pos hd (by norm_num))
    simp [setupDelayedLoopFade, fadeOutDuration, hpos]
    exact hd
  · simp only [randomDelaySeconds]
    nlinarith
  · simp only [randomDelaySeconds]
    nlinarith
  · have hplay :=
      playSoundFuel_hit none fuel (baseIdOf soundInstanceId) vol ts st hbuf
    refine ⟨{ startInstance (baseIdOf soundInstanceId) vol ts
          (cleanupSound (baseIdOf soundInstanceId) st) with
        loopTimeouts :=
          (startInstance (baseIdOf soundInstanceId) vol ts
            (cleanupSound (baseIdOf soundInstanceId) st)).loopTimeouts.filter
            (· ≠ soundInstanceId) }, ?_, ?_⟩
    · unfold loopTimerFire
      rw [hplay]
      rfl
    · exact startInstance_mem_sources (baseIdOf soundInstanceId) vol ts
        (cleanupSound (baseIdOf soundInstanceId) st)

/-- Witness for C5 at concrete inputs. -/
theorem c5_witness :
    str "birds" ∈ DELAYED_LOOP_SOUND_TYPES ∧
    (0 : ℚ) < 14 ∧ (0 : ℚ) ≤ 0 ∧ (0 : ℚ) < 1 ∧
    ((⟨[str "birds-soft"], [], [], [], none, false, false, true⟩ :
        AMState).audioBuffers.contains (baseIdOf (str "birds-soft")) =
      true) ∧
    ((str "birds" ∈ FADE_OUT_SOUND_TYPES ∧
       setupDelayedLoopFade 0 14 1 true =
         some ⟨0 + 14 - min (3 / 2) (14 * (1 / 10)),
               min (3 / 2) (14 * (1 / 10)), 1, 0⟩) ∧
     (5 ≤ randomDelaySeconds 0 ∧ randomDelaySeconds 0 < 27) ∧
     (∃ st', loopTimerFire none (0 + 1) (str "birds-soft") 1 0
         ⟨[str "birds-soft"], [], [], [], none, false, false, true⟩ =
           some st' ∧
       instanceIdFor (baseIdOf (str "birds-soft"))
           (⟨[str "birds-soft"], [], [], [], none, false, false,
             true⟩ : AMState).wasContextInterrupted 0 ∈
         st'.activeSources)) :=
  ⟨by decide, by decide, by decide, by decide, by decide,
   c5_delayed_loop_fade_and_gap (str "birds") (by decide) 0 14 1 0
     (by decide) (by decide) (by decide)
     ⟨[str "birds-soft"], [], [], [], none, false, false, true⟩
     (str "birds-soft") 1 0 0 (by decide)⟩

/-- **C3, counterexample.** Attach the PiP mirror sink and detach it again
on a state with one active gain at pre-attach volume 1: after the detach
the gain is connected back to the destination, but its audible output gain
is 0 (force-muted by `clearPiPConnections`), not the pre-attach volume 1 —
the volume is never restored by the detach path. -/
theorem c3_counterexample :
    (detachPiP (connectAllToPiP
        ⟨[str "rain-soft"], [str "rain-soft"],
         [(str "rain-soft", ⟨1, true, false, false⟩)], [], none, true,
         false, true⟩)).activeGains =
      [(str "rain-soft", ⟨0, true, false, false⟩)] ∧
    (1 : ℚ) ≠ 0 := by
  constructor
  · decide
  · norm_num

/-- **C3, amended.** Attaching the PiP mirror sink and then detaching it
restores the routing: afterwards every still-active gain node is connected
directly to the main destination, no node remains connected to the removed
mirror sink or to the removed main-page master gain, the master gain is
cleared, and the set of registered gain keys is unchanged — but every gain
value is forcibly set to 0 (muted) by the detach rather than restored to
its pre-attach volume; un-muting only happens through a later `setVolume`
or replay. -/
theorem c3_pip_detach_routing_restored (st : AMState)
    (hpip : st.hasPiP = true) :
    (∀ g ∈ (detachPiP (connectAllToPiP st)).activeGains,
       g.2.toDest = true ∧ g.2.toPiP = false ∧ g.2.toMaster = false ∧
         g.2.value = 0) ∧
    (detachPiP (connectAllToPiP st)).mainPageMasterGain = none ∧
    (detachPiP (connectAllToPiP st)).hasPiP = false ∧
    (detachPiP (connectAllToPiP st)).activeGains.map Prod.fst =
      st.activeGains.map Prod.fst := by
  have hgains : (detachPiP (connectAllToPiP st)).activeGains =
      st.activeGains.map fun g => (g.1, (⟨0, true, false, false⟩ : GNode)) := by
    simp only [detachPiP, clearPiPConnections, setMainPageMasterGainNone,
      connectAllToPiP, hpip, Bool.not_true, Bool.false_eq_true, if_false,
      List.map_map]
    exact List.map_congr_left fun g _ => rfl
  refine ⟨?_, ?_, ?_, ?_⟩
  · intro g hg
    rw [hgains] at hg
    obtain ⟨g0, _, rfl⟩ := List.mem_map.mp hg
    exact ⟨rfl, rfl, rfl, rfl⟩
  · rfl
  · simp [detachPiP, clearPiPConnections, setMainPageMasterGainNone,
      connectAllToPiP, hpip]
  · rw [hgains, List.map_map]
    exact List.map_congr_left fun g _ => rfl

/-- Witness for the amended C3 at a concrete input. -/
theorem c3_witness :
    ((⟨[], [str "wind-soft"], [(str "wind-soft", ⟨1, true, false, false⟩)],
        [], none, true, false, true⟩ : AMState).hasPiP = true) ∧
    ((∀ g ∈ (detachPiP (connectAllToPiP
          ⟨[], [str "wind-soft"],
           [(str "wind-soft", ⟨1, true, false, false⟩)], [], none, true,
           false, true⟩)).activeGains,
        g.2.toDest = true ∧ g.2.toPiP = false ∧ g.2.toMaster = false ∧
          g.2.value = 0) ∧
     (detachPiP (connectAllToPiP
          ⟨[], [str "wind-soft"],
           [(str "wind-soft", ⟨1, true, false, false⟩)], [], none, true,
           false, true⟩)).mainPageMasterGain = none ∧
     (detachPiP (connectAllToPiP
          ⟨[], [str "wind-soft"],
           [(str "wind-soft", ⟨1, true, false, false⟩)], [], none, true,
           false, true⟩)).hasPiP = false ∧
     (detachPiP (connectAllToPiP
          ⟨[], [str "wind-soft"],
           [(str "wind-soft", ⟨1, true, false, false⟩)], [], none, true,
           false, true⟩)).activeGains.map Prod.fst =
       (⟨[], [str "wind-soft"],
         [(str "wind-soft", ⟨1, true, false, false⟩)], [], none, true,
         false, true⟩ : AMState).activeGains.map Prod.fst) :=
  ⟨rfl,
   c3_pip_detach_routing_restored
     ⟨[], [str "wind-soft"], [(str "wind-soft", ⟨1, true, false, false⟩)],
      [], none, true, false, true⟩ rfl⟩

section StopLemmas

/-- `perAssetStop` leaves exactly the non-matching sources. -/
theorem perAssetStop_sources (a : SoundId) (st : AMState) :
    (perAssetStop a st).activeSources =
      st.activeSources.filter fun id => !matchesAsset a id := by
  have hsrc1 : (clearLoopTimeoutsForAsset a (stopSound a st)).activeSources =
      st.activeSources.filter (fun id => !matchesAsset a id) :=
    cleanupSound_sources a st
  have hrec : (clearLoopTimeoutsForAsset a (stopSound a st)).activeSources.filter
      (fun id => (a ++ recoveryTag).isPrefixOf id) = [] := by
    rw [hsrc1, List.filter_eq_nil_iff]
    intro x hx
    rw [List.mem_filter] at hx
    have hmf : matchesAsset a x = false := by simpa using hx.2
    intro hpre
    have hmt : matchesAsset a x = true := by simp [matchesAsset, hpre]
    rw [hmt] at hmf
    simp at hmf
  show (((clearLoopTimeoutsForAsset a (stopSound a st)).activeSources.filter
      (fun id => (a ++ recoveryTag).isPrefixOf id)).foldl
      (fun s i => stopSound i s)
      (clearLoopTimeoutsForAsset a (stopSound a st))).activeSources = _
  rw [hrec]
  exact hsrc1

/-- `perAssetStop` leaves exactly the non-matching pending loop timers. -/
theorem perAssetStop_timeouts (a : SoundId) (st : AMState) :
    (perAssetStop a st).loopTimeouts =
      st.loopTimeouts.filter fun id => !matchesAsset a id := by
  have hsrc1 : (clearLoopTimeoutsForAsset a (stopSound a st)).activeSources =
      st.activeSources.filter (fun id => !matchesAsset a id) :=
    cleanupSound_sources a st
  have hrec : (clearLoopTimeoutsForAsset a (stopSound a st)).activeSources.filter
      (fun id => (a ++ recoveryTag).isPrefixOf id) = [] := by
    rw [hsrc1, List.filter_eq_nil_iff]
    intro x hx
    rw [List.mem_filter] at hx
    have hmf : matchesAsset a x = false := by simpa using hx.2
    intro hpre
    have hmt : matchesAsset a x = true := by simp [matchesAsset, hpre]
    rw [hmt] at hmf
    simp at hmf
  have hto : (clearLoopTimeoutsForAsset a (stopSound a st)).loopTimeouts =
      st.loopTimeouts.filter fun id => !matchesAsset a id := by
    show ((stopSound a st).loopTimeouts.filter
        fun id => !matchesAsset a id) = _
    rw [show (stopSound a st).loopTimeouts =
        st.loopTimeouts.filter (fun id =>
          !(matchesAsset a id && st.activeSources.contains id)) from
      cleanupSound_timeouts a st]
    rw [List.filter_filter]
    refine List.filter_congr fun id _ => ?_
    cases h : matchesAsset a id <;> simp [h]
  show (((clearLoopTimeoutsForAsset a (stopSound a st)).activeSources.filter
      (fun id => (a ++ recoveryTag).isPrefixOf id)).foldl
      (fun s i => stopSound i s)
      (clearLoopTimeoutsForAsset a (stopSound a st))).loopTimeouts = _
  rw [hrec]
  exact hto

/-- `perAssetStop` filters the gain entries whose matching source was still
registered and force-mutes the matching survivors. -/
theorem perAssetStop_gains (a : SoundId) (st : AMState) :
    (perAssetStop a st).activeGains =
      (st.activeGains.filter fun g =>
        !(matchesAsset a g.1 && st.activeSources.contains g.1)).map
        fun g => if matchesAsset a g.1 then (g.1, mutedGNode) else g := by
  have hsrc1 : (clearLoopTimeoutsForAsset a (stopSound a st)).activeSources =
      st.activeSources.filter (fun id => !matchesAsset a id) :=
    cleanupSound_sources a st
  have hrec : (clearLoopTimeoutsForAsset a (stopSound a st)).activeSources.filter
      (fun id => (a ++ recoveryTag).isPrefixOf id) = [] := by
    rw [hsrc1, List.filter_eq_nil_iff]
    intro x hx
    rw [List.mem_filter] at hx
    have hmf : matchesAsset a x = false := by simpa using hx.2
    intro hpre
    have hmt : matchesAsset a x = true := by simp [matchesAsset, hpre]
    rw [hmt] at hmf
    simp at hmf
  show ((((clearLoopTimeoutsForAsset a (stopSound a st)).activeSources.filter
      (fun id => (a ++ recoveryTag).isPrefixOf id)).foldl
      (fun s i => stopSound i s)
      (clearLoopTimeoutsForAsset a (stopSound a st))).activeGains.map
      fun (g : SoundId × GNode) =>
        if matchesAsset a g.1 then (g.1, mutedGNode) else g) = _
  rw [hrec]
  show (((stopSound a st).activeGains).map
      fun (g : SoundId × GNode) =>
        if matchesAsset a g.1 then (g.1, mutedGNode) else g) = _
  rw [show (stopSound a st).activeGains =
      st.activeGains.filter (fun g =>
        !(matchesAsset a g.1 && st.activeSources.contains g.1)) from
    cleanupSound_gains a st]

/-- Every gain entry after `perAssetStop` comes from an original entry,
either untouched (non-matching) or force-muted (matching). -/
theorem perAssetStop_gains_mem (a : SoundId) (st : AMState)
    (g : SoundId × GNode) (hg : g ∈ (perAssetStop a st).activeGains) :
    ∃ g0 ∈ st.activeGains,
      g = if matchesAsset a g0.1 then (g0.1, mutedGNode) else g0 := by
  rw [perAssetStop_gains] at hg
  obtain ⟨g0, hg0, rfl⟩ := List.mem_map.mp hg
  rw [List.mem_filter] at hg0
  exact ⟨g0, hg0.1, rfl⟩

/-- A layer `a` is fully stopped in `st`: no matching active source, no
matching pending loop timer, and every registered matching gain is already
force-muted and disconnected. -/
def CleanFor (a : SoundId) (st : AMState) : Prop :=
  (∀ id ∈ st.activeSources, matchesAsset a id = false) ∧
  (∀ id ∈ st.loopTimeouts, matchesAsset a id = false) ∧
  (∀ g ∈ st.activeGains, matchesAsset a g.1 = true → g.2 = mutedGNode)

/-- `perAssetStop a` fully stops layer `a`. -/
theorem perAssetStop_cleanFor_self (a : SoundId) (st : AMState) :
    CleanFor a (perAssetStop a st) := by
  refine ⟨?_, ?_, ?_⟩
  · intro id hid
    rw [perAssetStop_sources, List.mem_filter] at hid
    simpa using hid.2
  · intro id hid
    rw [perAssetStop_timeouts, List.mem_filter] at hid
    simpa using hid.2
  · intro g hg hm
    obtain ⟨g0, hg0, heq⟩ := perAssetStop_gains_mem a st g hg
    by_cases h : matchesAsset a g0.1 = true
    · rw [heq]
      simp [h, mutedGNode]
    · rw [heq] at hm
      simp [h] at hm

/-- `perAssetStop b` keeps any other layer fully stopped. -/
theorem perAssetStop_preserves_cleanFor (a b : SoundId) (st : AMState)
    (h : CleanFor a st) : CleanFor a (perAssetStop b st) := by
  obtain ⟨h1, h2, h3⟩ := h
  refine ⟨?_, ?_, ?_⟩
  · intro id hid
    rw [perAssetStop_sources, List.mem_filter] at hid
    exact h1 id hid.1
  · intro id hid
    rw [perAssetStop_timeouts, List.mem_filter] at hid
    exact h2 id hid.1
  · intro g hg hm
    obtain ⟨g0, hg0, heq⟩ := perAssetStop_gains_mem b st g hg
    by_cases hb : matchesAsset b g0.1 = true
    · rw [heq]
      simp [hb, mutedGNode]
    · rw [if_neg (by simp [hb])] at heq
      rw [heq] at hm ⊢
      exact h3 g0 hg0 hm

/-- The per-asset stop fold keeps a fully stopped layer fully stopped. -/
theorem foldStop_preserves_cleanFor (a : SoundId) (l : List SoundId)
    (st : AMState) (h : CleanFor a st) :
    CleanFor a (l.foldl (fun s x => perAssetStop x s) st) := by
  induction l generalizing st with
  | nil => exact h
  | cons x xs ih => exact ih _ (perAssetStop_preserves_cleanFor a x st h)

/-- After the per-asset stop fold, every listed layer is fully stopped. -/
theorem foldStop_cleanFor (l : List SoundId) (st : AMState) :
    ∀ a ∈ l, CleanFor a (l.foldl (fun s x => perAssetStop x s) st) := by
  induction l generalizing st with
  | nil =>
    intro a ha
    simp at ha
  | cons x xs ih =>
    intro a ha
    rw [List.foldl_cons]
    rcases List.mem_cons.mp ha with h | h
    · subst h
      exact foldStop_preserves_cleanFor a xs _
        (perAssetStop_cleanFor_self a st)
    · exact ih _ a h

end StopLemmas

section EnsureLemmas

/-- After `ensureAllStopped`, every listed layer is fully stopped. -/
theorem ensureAllStopped_cleanFor (ids : List SoundId) (st : AMState)
    (a : SoundId) (ha : a ∈ ids) : CleanFor a (ensureAllStopped ids st) := by
  have hne : ids.isEmpty = false := by
    cases ids with
    | nil => cases ha
    | cons x xs => rfl
  unfold ensureAllStopped
  simp only [hne, Bool.false_eq_true, if_false]
  obtain ⟨h1, h2, h3⟩ := foldStop_cleanFor ids st a ha
  refine ⟨?_, h2, h3⟩
  intro id hid
  rw [List.mem_filter] at hid
  exact h1 id hid.1

/-- After `ensureAllStopped`, no remaining source id has its base id in the
stopped list (the final fallback has removed any such escapee). -/
theorem ensureAllStopped_no_escape (ids : List SoundId) (st : AMState)
    (hne : ids.isEmpty = false) :
    ∀ id ∈ (ensureAllStopped ids st).activeSources,
      ids.contains (baseIdOf id) = false := by
  unfold ensureAllStopped
  simp only [hne, Bool.false_eq_true, if_false]
  intro id hid
  rw [List.mem_filter] at hid
  obtain ⟨hmem, hnc⟩ := hid
  by_contra hc
  have hct : ids.contains (baseIdOf id) = true := by
    revert hc
    cases ids.contains (baseIdOf id) <;> simp
  have hctm : baseIdOf id ∈ ids := by
    simpa [List.contains, List.elem_eq_mem] using hct
  simp [List.contains, List.elem_eq_mem, List.mem_filter, hmem, hctm] at hnc

/-- `perAssetStop` on a fully stopped layer changes nothing. -/
theorem perAssetStop_id (a : SoundId) (st : AMState) (h : CleanFor a st) :
    perAssetStop a st = st := by
  obtain ⟨h1, h2, h3⟩ := h
  have e1 : stopSound a st = st := cleanupSound_no_match a st h1
  have e2 : clearLoopTimeoutsForAsset a st = st := by
    unfold clearLoopTimeoutsForAsset
    have : st.loopTimeouts.filter (fun id => !matchesAsset a id) =
        st.loopTimeouts :=
      List.filter_eq_self.mpr fun id hid => by simp [h2 id hid]
    rw [this]
  have e3 : st.activeSources.filter
      (fun id => (a ++ recoveryTag).isPrefixOf id) = [] := by
    rw [List.filter_eq_nil_iff]
    intro x hx hpre
    have := h1 x hx
    simp [matchesAsset, hpre] at this
  have e4 : (st.activeGains.map fun (g : SoundId × GNode) =>
      if matchesAsset a g.1 then (g.1, mutedGNode) else g) =
      st.activeGains := by
    have hc : ∀ g ∈ st.activeGains,
        (if matchesAsset a g.1 then (g.1, mutedGNode) else g) = id g := by
      intro g hg
      by_cases hm : matchesAsset a g.1 = true
      · rw [if_pos hm, ← h3 g hg hm]
        rfl
      · rw [if_neg (by simp [hm])]
        rfl
    rw [List.map_congr_left hc, List.map_id]
  simp only [perAssetStop, e1, e2, e3, List.foldl_nil, e4]

/-- The per-asset fold on a state where every listed layer is already
fully stopped changes nothing. -/
theorem foldStop_id (l : List SoundId) (st : AMState)
    (h : ∀ a ∈ l, CleanFor a st) :
    l.foldl (fun s x => perAssetStop x s) st = st := by
  induction l with
  | nil => rfl
  | cons x xs ih =>
    rw [List.foldl_cons, perAssetStop_id x st (h x (List.mem_cons_self x xs))]
    exact ih fun a ha => h a (List.mem_cons_of_mem x ha)

/-- `ensureAllStopped` on a state where every listed layer is already
fully stopped and no source's base id is listed changes nothing. -/
theorem ensureAllStopped_id (ids : List SoundId) (st : AMState)
    (h : ∀ a ∈ ids, CleanFor a st)
    (hesc : ∀ id ∈ st.activeSources, ids.contains (baseIdOf id) = false) :
    ensureAllStopped ids st = st := by
  cases hids : ids.isEmpty with
  | true =>
    unfold ensureAllStopped
    simp [hids]
  | false =>
    unfold ensureAllStopped
    simp only [hids, Bool.false_eq_true, if_false]
    rw [foldStop_id ids st h]
    have hescap : st.activeSources.filter
        (fun i => ids.contains (baseIdOf i)) = [] := by
      rw [List.filter_eq_nil_iff]
      intro x hx
      have := hesc x hx
      simp only [List.contains, List.elem_eq_mem, decide_eq_false_iff_not]
        at this ⊢
      simpa using this
    rw [hescap]
    simp

/-- Two successive `ensureAllStopped` calls are the same as one. -/
theorem ensureAllStopped_twice (ids : List SoundId) (st : AMState) :
    ensureAllStopped ids (ensureAllStopped ids st) =
      ensureAllStopped ids st := by
  cases hids : ids.isEmpty with
  | true =>
    have hid : ∀ s, ensureAllStopped ids s = s := by
      intro s
      unfold ensureAllStopped
      simp [hids]
    rw [hid, hid]
  | false =>
    refine ensureAllStopped_id ids _ ?_ ?_
    · intro a ha
      exact ensureAllStopped_cleanFor ids st a ha
    · exact ensureAllStopped_no_escape ids st hids

end EnsureLemmas

/-- **C6.** `ensureAllStopped` is idempotent: for every list of asset ids
and every engine state, calling it `N` times in a row (`N ≥ 1`) produces
exactly the same end state — in particular the same `activeSources`,
`activeGains` and `loopTimeouts` contents — as calling it once. -/
theorem c6_ensureAllStopped_idempotent (ids : List SoundId) (st : AMState)
    (n : Nat) (hn : 1 ≤ n) :
    (ensureAllStopped ids)^[n] st = ensureAllStopped ids st := by
  induction n with
  | zero => omega
  | succ m ih =>
    by_cases hm : 1 ≤ m
    · rw [Function.iterate_succ_apply', ih hm, ensureAllStopped_twice]
    · have hz : m = 0 := by omega
      subst hz
      simp

/-- Witness for C6 at a concrete input (three calls equal one call). -/
theorem c6_witness :
    1 ≤ 3 ∧
    (ensureAllStopped [str "birds-soft"])^[3]
        ⟨[str "birds-soft"], [str "birds-soft"],
         [(str "birds-soft", ⟨1, true, false, false⟩)],
         [str "birds-soft"], none, false, false, true⟩ =
      ensureAllStopped [str "birds-soft"]
        ⟨[str "birds-soft"], [str "birds-soft"],
         [(str "birds-soft", ⟨1, true, false, false⟩)],
         [str "birds-soft"], none, false, false, true⟩ :=
  ⟨by decide,
   c6_ensureAllStopped_idempotent [str "birds-soft"]
     ⟨[str "birds-soft"], [str "birds-soft"],
      [(str "birds-soft", ⟨1, true, false, false⟩)],
      [str "birds-soft"], none, false, false, true⟩ 3 (by decide)⟩

/-- **C2, counterexample.** A delayed-loop sound (`birds-soft`) ends
naturally: the `onended` callback removes its source and gain and leaves a
pending 5–27 s restart timer.  An explicit `stopSound ('birds-soft')` in
this window cancels nothing — `cleanupSound` only clears timers for ids it
finds in `activeSources`, which is now empty — so the timer stays pending,
and when it fires the scheduled `playSound` produces an audible playback
instance after the explicit stop (phantom playback). -/
theorem c2_counterexample :
    delayedOnEnded (str "birds-soft")
        ⟨[str "birds-soft"], [str "birds-soft"],
         [(str "birds-soft", ⟨1, true, false, false⟩)], [], none, false,
         false, true⟩ =
      ⟨[str "birds-soft"], [], [], [str "birds-soft"], none, false, false,
       true⟩ ∧
    (stopSound (str "birds-soft")
        ⟨[str "birds-soft"], [], [], [str "birds-soft"], none, false,
         false, true⟩).loopTimeouts = [str "birds-soft"] ∧
    loopTimerFire none 1 (str "birds-soft") 1 0
        (stopSound (str "birds-soft")
          ⟨[str "birds-soft"], [], [], [str "birds-soft"], none, false,
           false, true⟩) =
      some ⟨[str "birds-soft"], [str "birds-soft"],
            [(str "birds-soft", ⟨1, true, false, false⟩)], [], none,
            false, false, true⟩ ∧
    str "birds-soft" ∈
      (⟨[str "birds-soft"], [str "birds-soft"],
        [(str "birds-soft", ⟨1, true, false, false⟩)], [], none, false,
        false, true⟩ : AMState).activeSources := by
  exact ⟨by decide, by decide, by decide, by decide⟩

/-- **C2, amended.** An explicit `stopSound` cancels a layer's pending
delayed-loop restart timer only when a matching playback instance is still
registered in `activeSources`; a timer pending during the inter-iteration
delay window (its instance already ended) survives `stopSound` and its
scheduled replay still plays (see the counterexample).  The stronger
`ensureAllStopped` — the stop path the equalizer actually uses — does
cancel every pending restart timer for the listed layers. -/
theorem c2_stop_timer_cancellation (st : AMState) (assetId : SoundId)
    (assetIds : List SoundId) (ha : assetId ∈ assetIds) :
    (∀ id, matchesAsset assetId id = true → id ∈ st.activeSources →
       id ∉ (stopSound assetId st).loopTimeouts) ∧
    (∀ id ∈ (ensureAllStopped assetIds st).loopTimeouts,
       matchesAsset assetId id = false) := by
  constructor
  · intro id hm hsrc hmem
    unfold stopSound at hmem
    rw [cleanupSound_timeouts, List.mem_filter] at hmem
    have h2 := hmem.2
    simp [hm, List.contains, List.elem_eq_mem, hsrc] at h2
  · intro id hid
    exact (ensureAllStopped_cleanFor assetIds st assetId ha).2.1 id hid

/-- Witness for the amended C2 at a concrete input. -/
theorem c2_witness :
    str "birds-soft" ∈ [str "birds-soft"] ∧
    ((∀ id, matchesAsset (str "birds-soft") id = true →
        id ∈ (⟨[str "birds-soft"], [str "birds-soft"],
          [(str "birds-soft", ⟨1, true, false, false⟩)],
          [str "birds-soft"], none, false, false, true⟩ :
            AMState).activeSources →
        id ∉ (stopSound (str "birds-soft")
          ⟨[str "birds-soft"], [str "birds-soft"],
           [(str "birds-soft", ⟨1, true, false, false⟩)],
           [str "birds-soft"], none, false, false, true⟩).loopTimeouts) ∧
     (∀ id ∈ (ensureAllStopped [str "birds-soft"]
          ⟨[str "birds-soft"], [str "birds-soft"],
           [(str "birds-soft", ⟨1, true, false, false⟩)],
           [str "birds-soft"], none, false, false, true⟩).loopTimeouts,
        matchesAsset (str "birds-soft") id = false)) :=
  ⟨by decide,
   c2_stop_timer_cancellation
     ⟨[str "birds-soft"], [str "birds-soft"],
      [(str "birds-soft", ⟨1, true, false, false⟩)], [str "birds-soft"],
      none, false, false, true⟩
     (str "birds-soft") [str "birds-soft"] (by decide)⟩
